import Mathlib

/-!
Shallow embedding of `kolibri/core/public/api.py`: the public read-only
discovery API (channel listing, channel lookup by identifier, and per-channel
file-checksum enumeration), together with proofs of the spec's claims.

The Django ORM querysets are modelled as pure functions over an explicit
in-memory `Store` holding the relational data the queries touch.
-/

namespace Kolibri

/-- Python's `str.strip()`: remove leading and trailing whitespace. -/
def strip (s : String) : String :=
  String.mk ((s.data.dropWhile Char.isWhitespace).reverse.dropWhile Char.isWhitespace).reverse

/-- Lower-casing used for case-insensitive comparison. -/
def lower (s : String) : String :=
  String.mk (s.data.map Char.toLower)

/-- `listInfix needle hay` is true when `needle` occurs as a contiguous
sublist of `hay`. -/
def listInfix (needle : List Char) : List Char → Bool
  | [] => needle.isEmpty
  | c :: rest => needle.isPrefixOf (c :: rest) || listInfix needle rest

/-- Django's `icontains` lookup: case-insensitive substring containment.
`icontains haystack needle` is true when `needle` occurs in `haystack`
ignoring case. -/
def icontains (haystack needle : String) : Bool :=
  listInfix (lower needle).data (lower haystack).data

/-- `lang__id__icontains` through a nullable foreign key: a null language
never matches (SQL semantics of a join on a NULL key). -/
def langIdContains (lang : Option String) (needle : String) : Bool :=
  match lang with
  | some t => icontains t needle
  | none => false

/-- `LocalFile` model: deduplicated physical-file record; its primary key `id`
is the checksum returned by the checksum endpoint. -/
structure LocalFile where
  id : String
  available : Bool
deriving DecidableEq, Repr

/-- `File` model: references exactly one `LocalFile` (`local_file` FK) and has
an optional language. -/
structure File where
  id : String
  lang : Option String
  local_file : String
deriving DecidableEq, Repr

/-- `ContentNode` model: belongs to a tree (`tree_id`), has an optional
language, an `available` flag, and a many-to-many `files` relation (stored
here as the list of related `File` ids). -/
structure ContentNode where
  id : String
  tree_id : Nat
  lang : Option String
  available : Bool
  files : List String
deriving DecidableEq, Repr

/-- `ChannelMetadata` model: primary key `id`, `name`, `description`, and the
`root` foreign key to its root `ContentNode`. -/
structure ChannelMetadata where
  id : String
  name : String
  description : String
  root : String
deriving DecidableEq, Repr

/-- The query parameters read by `_get_channel_list_v1`
(`params.get("keyword", "")` and `params.get("language", "")`). -/
structure Params where
  keyword : String := ""
  language : String := ""
deriving DecidableEq, Repr

/-- The relational store the querysets run over. -/
structure Store where
  channels : List ChannelMetadata
  nodes : List ContentNode
  files : List File
  local_files : List LocalFile
deriving DecidableEq, Repr

/-- Resolve a channel's `root` foreign key (`channel.root`). -/
def Store.rootNode (s : Store) (c : ChannelMetadata) : Option ContentNode :=
  s.nodes.find? (fun n => n.id == c.root)

/-- One `ContentNode` row of the queryset
`ContentNode.objects.filter(Q(lang__id__icontains=language_id) |
Q(files__lang__id__icontains=language_id))`: the node's own language matches,
or some related `File`'s language matches. -/
def nodeMatchesLanguage (s : Store) (language_id : String) (n : ContentNode) : Bool :=
  langIdContains n.lang language_id ||
    s.files.any (fun f => n.files.contains f.id && langIdContains f.lang language_id)

/-- `matching_tree_ids`: the `values_list("tree_id", flat=True)` of the nodes
matching the language criterion. -/
def matchingTreeIds (s : Store) (language_id : String) : List Nat :=
  (s.nodes.filter (nodeMatchesLanguage s language_id)).map (fun n => n.tree_id)

/-- The keyword criterion
`Q(name__icontains=keyword) | Q(description__icontains=keyword)`. -/
def channelKeywordMatch (keyword : String) (c : ChannelMetadata) : Bool :=
  icontains c.name keyword || icontains c.description keyword

/-- The language criterion `Q(root__lang__id__icontains=language_id) |
Q(root__tree_id__in=matching_tree_ids)`. -/
def channelLanguageMatch (s : Store) (language_id : String) (c : ChannelMetadata) : Bool :=
  match s.rootNode c with
  | some r => langIdContains r.lang language_id || (matchingTreeIds s language_id).contains r.tree_id
  | none => false

/-- The availability criterion `root__available=True`. -/
def channelRootAvailable (s : Store) (c : ChannelMetadata) : Bool :=
  match s.rootNode c with
  | some r => r.available
  | none => false

/-- `_get_channel_list_v1(params, identifier=None)`: start from the single
channel with primary key `identifier` when `identifier` is truthy (a non-empty
string), else all channels; then apply the keyword filter, the language filter
and the root-availability filter, and `.distinct()`. -/
def get_channel_list_v1 (s : Store) (params : Params) (identifier : Option String) :
    List ChannelMetadata :=
  let keyword := strip params.keyword
  let language_id := strip params.language
  let channels : List ChannelMetadata :=
    match identifier with
    | some i =>
        if i ≠ "" then s.channels.filter (fun c => c.id == i) else s.channels
    | none => s.channels
  let channels :=
    if keyword ≠ "" then channels.filter (channelKeywordMatch keyword) else channels
  let channels :=
    if language_id ≠ "" then channels.filter (channelLanguageMatch s language_id)
    else channels
  (channels.filter (channelRootAvailable s)).dedup

/-- `_get_channel_list(version, params, identifier=None)`: dispatch on the
protocol version; any version other than `"v1"` raises `LookupError`,
modelled as `Except.error ()`. -/
def get_channel_list (s : Store) (version : String) (params : Params)
    (identifier : Option String) : Except Unit (List ChannelMetadata) :=
  if version = "v1" then Except.ok (get_channel_list_v1 s params identifier)
  else Except.error ()

/-- Modelled from the spec: `error_constants.NOT_FOUND`, imported from
`kolibri.core.error_constants`, which is not among the provided sources; the
spec only uses it as an opaque error code placed in the body
`{"id": NOT_FOUND, "metadata": {"view": ""}}`. -/
def NOT_FOUND : String := "NOT_FOUND"

/-- The structured body `{"id": ..., "metadata": {"view": ...}}` of the
404-style responses. -/
structure ErrorBody where
  id : String
  view : String
deriving DecidableEq, Repr

/-- The body `{"id": error_constants.NOT_FOUND, "metadata": {"view": ""}}`. -/
def notFoundBody : ErrorBody :=
  { id := NOT_FOUND, view := "" }

/-- Observable outcome of a request: a success body, an
`HttpResponseNotFound` with a structured body, or an unhandled exception
(500-style). -/
inductive HttpResult (α : Type) where
  | ok : α → HttpResult α
  | notFound : ErrorBody → HttpResult α
  | serverError : HttpResult α
deriving DecidableEq, Repr

/-- `get_public_channel_list(request, version)`: run `_get_channel_list`; a
`LookupError` becomes the 404-style body, otherwise the channel list is
serialized as a success response. -/
def get_public_channel_list (s : Store) (version : String) (params : Params) :
    HttpResult (List ChannelMetadata) :=
  match get_channel_list s version params none with
  | Except.ok l => HttpResult.ok l
  | Except.error _ => HttpResult.notFound notFoundBody

/-- The identifier normalization `identifier.strip().replace("-", "")` in
`get_public_channel_lookup`. -/
def normalizeIdentifier (identifier : String) : String :=
  String.mk ((strip identifier).data.filter (fun ch => ch ≠ '-'))

/-- `get_public_channel_lookup(request, version, identifier)`: normalize the
identifier, run `_get_channel_list`; a `LookupError` or an empty resulting
queryset becomes the 404-style body, otherwise success. -/
def get_public_channel_lookup (s : Store) (version : String) (params : Params)
    (identifier : String) : HttpResult (List ChannelMetadata) :=
  match get_channel_list s version params (some (normalizeIdentifier identifier)) with
  | Except.error _ => HttpResult.notFound notFoundBody
  | Except.ok l =>
      if l.isEmpty then HttpResult.notFound notFoundBody else HttpResult.ok l

/-- The join `files__contentnode__tree_id=tree_id` from a `LocalFile`: some
`File` pointing at this `LocalFile` is related to some `ContentNode` of the
given tree. -/
def localFileReachable (s : Store) (lf_id : String) (tid : Nat) : Bool :=
  s.files.any (fun f => f.local_file == lf_id &&
    s.nodes.any (fun n => n.tree_id == tid && n.files.contains f.id))

/-- `get_public_file_checksums(request, version, channel_id)`: for `"v1"`,
look up the channel (a missing channel is caught and yields `[]`), take its
root's `tree_id`, and return the distinct ids of available `LocalFile`s
reachable through that tree; any other version yields the 404-style body.
A channel whose `root` key resolves to no node would raise an uncaught
exception, modelled as `serverError`. -/
def get_public_file_checksums (s : Store) (version : String) (channel_id : String) :
    HttpResult (List String) :=
  if version = "v1" then
    match s.channels.find? (fun c => c.id == channel_id) with
    | none => HttpResult.ok []
    | some c =>
        match s.rootNode c with
        | none => HttpResult.serverError
        | some r =>
            HttpResult.ok
              (((s.local_files.filter
                  (fun lf => lf.available && localFileReachable s lf.id r.tree_id)).map
                (fun lf => lf.id)).dedup)
  else HttpResult.notFound notFoundBody

/-! ### Helper lemmas -/

lemma langIdContains_iff (l : Option String) (x : String) :
    langIdContains l x = true ↔ ∃ t, l = some t ∧ icontains t x = true := by
  cases l <;> simp [langIdContains]

lemma nodeMatchesLanguage_iff (s : Store) (x : String) (n : ContentNode) :
    nodeMatchesLanguage s x n = true ↔
      (langIdContains n.lang x = true ∨
        ∃ f ∈ s.files, f.id ∈ n.files ∧ langIdContains f.lang x = true) := by
  simp [nodeMatchesLanguage, List.any_eq_true]

lemma mem_matchingTreeIds (s : Store) (x : String) (tid : Nat) :
    tid ∈ matchingTreeIds s x ↔
      ∃ n ∈ s.nodes, n.tree_id = tid ∧ nodeMatchesLanguage s x n = true := by
  simp only [matchingTreeIds, List.mem_map, List.mem_filter]
  constructor
  · rintro ⟨n, ⟨hn, hm⟩, ht⟩
    exact ⟨n, hn, ht, hm⟩
  · rintro ⟨n, hn, ht, hm⟩
    exact ⟨n, ⟨hn, hm⟩, ht⟩

lemma channelLanguageMatch_iff (s : Store) (x : String) (c : ChannelMetadata) :
    channelLanguageMatch s x c = true ↔
      ∃ r, s.rootNode c = some r ∧
        (langIdContains r.lang x = true ∨ r.tree_id ∈ matchingTreeIds s x) := by
  cases h : s.rootNode c <;> simp [channelLanguageMatch, h]

lemma channelRootAvailable_iff (s : Store) (c : ChannelMetadata) :
    channelRootAvailable s c = true ↔
      ∃ r, s.rootNode c = some r ∧ r.available = true := by
  cases h : s.rootNode c <;> simp [channelRootAvailable, h]

/-- Full characterization of membership in the v1 filtered channel list. -/
lemma mem_get_channel_list_v1 (s : Store) (p : Params) (idf : Option String)
    (c : ChannelMetadata) :
    c ∈ get_channel_list_v1 s p idf ↔
      c ∈ s.channels ∧
      (∀ i, idf = some i → i ≠ "" → c.id = i) ∧
      (strip p.keyword ≠ "" → channelKeywordMatch (strip p.keyword) c = true) ∧
      (strip p.language ≠ "" → channelLanguageMatch s (strip p.language) c = true) ∧
      channelRootAvailable s c = true := by
  unfold get_channel_list_v1
  cases idf with
  | none =>
      by_cases hk : strip p.keyword = "" <;> by_cases hl : strip p.language = "" <;>
        simp [hk, hl, List.mem_dedup, List.mem_filter] <;> tauto
  | some i =>
      by_cases hi : i = ""
      · subst hi
        by_cases hk : strip p.keyword = "" <;> by_cases hl : strip p.language = "" <;>
          simp [hk, hl, List.mem_dedup, List.mem_filter] <;> tauto
      · by_cases hk : strip p.keyword = "" <;> by_cases hl : strip p.language = "" <;>
          simp [hi, hk, hl, List.mem_dedup, List.mem_filter] <;> tauto

lemma strip_empty : strip "" = "" := rfl

/-! ### Claim theorems -/

/-- C3: a channel appears in the unfiltered v1 channel listing (no keyword,
no language, no identifier supplied) if and only if its root content node has
`available = true`. -/
theorem C3_unfiltered_listing_iff_root_available (s : Store) (c : ChannelMetadata) :
    ∃ l, get_public_channel_list s "v1" { keyword := "", language := "" } =
        HttpResult.ok l ∧
      (c ∈ l ↔ c ∈ s.channels ∧ ∃ r, s.rootNode c = some r ∧ r.available = true) := by
  refine ⟨get_channel_list_v1 s { keyword := "", language := "" } none, ?_, ?_⟩
  · simp [get_public_channel_list, get_channel_list]
  · rw [mem_get_channel_list_v1]
    simp [strip_empty, channelRootAvailable_iff]

/-- C9: no channel appears more than once in a single v1 channel-listing
result, whatever the filters, even when several match conditions select it
independently. -/
theorem C9_listing_nodup (s : Store) (p : Params) (idf : Option String) :
    (get_channel_list_v1 s p idf).Nodup := by
  simp only [get_channel_list_v1]
  exact List.nodup_dedup _

/-- C5: for every protocol version other than `"v1"`, the channel-listing,
channel-lookup and file-checksums endpoints each return the 404-style
response with body `{"id": NOT_FOUND, "metadata": {"view": ""}}`. -/
theorem C5_unsupported_version_not_found (s : Store) (p : Params)
    (identifier channel_id version : String) (hv : version ≠ "v1") :
    get_public_channel_list s version p = HttpResult.notFound notFoundBody ∧
    get_public_channel_lookup s version p identifier = HttpResult.notFound notFoundBody ∧
    get_public_file_checksums s version channel_id = HttpResult.notFound notFoundBody := by
  refine ⟨?_, ?_, ?_⟩ <;>
    simp [get_public_channel_list, get_public_channel_lookup, get_public_file_checksums,
      get_channel_list, hv]

theorem C5_witness :
    ("v2" : String) ≠ "v1" ∧
    get_public_channel_list ⟨[], [], [], []⟩ "v2" {} = HttpResult.notFound notFoundBody ∧
    get_public_channel_lookup ⟨[], [], [], []⟩ "v2" {} "x" =
      HttpResult.notFound notFoundBody ∧
    get_public_file_checksums ⟨[], [], [], []⟩ "v2" "x" =
      HttpResult.notFound notFoundBody := by
  have h := C5_unsupported_version_not_found ⟨[], [], [], []⟩ {} "x" "x" "v2" (by decide)
  exact ⟨by decide, h.1, h.2.1, h.2.2⟩

/-- C7: on the file-checksums endpoint with version `"v1"`, a missing channel
yields a success response with an empty array — distinct from the 404-style
error body produced for an unsupported version. -/
theorem C7_missing_channel_soft_empty (s : Store) (channel_id : String)
    (h : s.channels.find? (fun c => c.id == channel_id) = none) :
    get_public_file_checksums s "v1" channel_id = HttpResult.ok [] ∧
    (∀ version, version ≠ "v1" →
      get_public_file_checksums s version channel_id = HttpResult.notFound notFoundBody) ∧
    HttpResult.ok ([] : List String) ≠ HttpResult.notFound notFoundBody := by
  refine ⟨?_, ?_, ?_⟩
  · simp [get_public_file_checksums, h]
  · intro v hv
    simp [get_public_file_checksums, hv]
  · exact fun hcon => HttpResult.noConfusion hcon

theorem C7_witness :
    (Store.mk [] [] [] []).channels.find? (fun c => c.id == "missing") = none ∧
    get_public_file_checksums ⟨[], [], [], []⟩ "v1" "missing" = HttpResult.ok [] := by
  have h := C7_missing_channel_soft_empty ⟨[], [], [], []⟩ "missing" (by decide)
  exact ⟨by decide, h.1⟩

/-- C2: for a keyword that is non-empty after stripping surrounding
whitespace, a channel appears in the v1 keyword-filtered channel listing if
and only if the stripped keyword occurs as a case-insensitive substring of its
name or of its description, and its root content node is available. -/
theorem C2_keyword_filtered_listing (s : Store) (k : String) (c : ChannelMetadata)
    (hk : strip k ≠ "") :
    c ∈ get_channel_list_v1 s { keyword := k, language := "" } none ↔
      c ∈ s.channels ∧
        (icontains c.name (strip k) = true ∨ icontains c.description (strip k) = true) ∧
        ∃ r, s.rootNode c = some r ∧ r.available = true := by
  rw [mem_get_channel_list_v1]
  simp [strip_empty, hk, channelKeywordMatch, channelRootAvailable_iff, and_assoc]

def nA : ContentNode :=
  { id := "n1", tree_id := 1, lang := some "en", available := true, files := [] }

def chA : ChannelMetadata :=
  { id := "c1", name := "Math Basics", description := "numeracy", root := "n1" }

def WA : Store := { channels := [chA], nodes := [nA], files := [], local_files := [] }

theorem C2_witness :
    strip "math" ≠ "" ∧
    chA ∈ get_channel_list_v1 WA { keyword := "math", language := "" } none := by
  refine ⟨by decide, ?_⟩
  exact (C2_keyword_filtered_listing WA "math" chA (by decide)).mpr
    ⟨by decide, Or.inl (by decide), nA, by decide, by decide⟩

/-- C6: with version `"v1"`, when the lookup's combined filters leave zero
channels the lookup endpoint returns the 404-style not-found body, whereas
the plain listing endpoint always returns a success response carrying the
(possibly empty) filtered list. -/
theorem C6_empty_lookup_not_found_listing_ok (s : Store) (p : Params) (identifier : String)
    (h : get_channel_list_v1 s p (some (normalizeIdentifier identifier)) = []) :
    get_public_channel_lookup s "v1" p identifier = HttpResult.notFound notFoundBody ∧
    ∀ s2 p2, get_public_channel_list s2 "v1" p2 =
      HttpResult.ok (get_channel_list_v1 s2 p2 none) := by
  constructor
  · simp [get_public_channel_lookup, get_channel_list, h]
  · intro s2 p2
    simp [get_public_channel_list, get_channel_list]

def n6 : ContentNode :=
  { id := "n1", tree_id := 1, lang := none, available := false, files := [] }

def ch6 : ChannelMetadata :=
  { id := "abc", name := "Unavailable", description := "", root := "n1" }

def W6 : Store := { channels := [ch6], nodes := [n6], files := [], local_files := [] }

theorem C6_witness :
    get_channel_list_v1 W6 {} (some (normalizeIdentifier "abc")) = [] ∧
    W6.channels.filter (fun c => c.id == normalizeIdentifier "abc") = [ch6] ∧
    get_public_channel_lookup W6 "v1" {} "abc" = HttpResult.notFound notFoundBody ∧
    get_public_channel_list W6 "v1" {} = HttpResult.ok [] := by
  have h := C6_empty_lookup_not_found_listing_ok W6 {} "abc" (by decide)
  exact ⟨by decide, by decide, h.1,
    (h.2 W6 {}).trans (congrArg HttpResult.ok (by decide))⟩

/-- C10: when the supplied lookup identifier normalizes to the empty string
(only whitespace and hyphens), the candidate set is all channels: the v1
pipeline behaves exactly as the unrestricted listing, and the lookup endpoint
returns every channel the remaining filters retain rather than not-found, as
long as at least one channel is retained. -/
theorem C10_blank_identifier_behaves_as_listing (s : Store) (p : Params)
    (identifier : String) (h : normalizeIdentifier identifier = "") :
    get_channel_list_v1 s p (some (normalizeIdentifier identifier)) =
      get_channel_list_v1 s p none ∧
    (get_channel_list_v1 s p none ≠ [] →
      get_public_channel_lookup s "v1" p identifier =
        HttpResult.ok (get_channel_list_v1 s p none)) := by
  have h1 : get_channel_list_v1 s p (some (normalizeIdentifier identifier)) =
      get_channel_list_v1 s p none := by
    rw [h]
    simp [get_channel_list_v1]
  refine ⟨h1, fun hne => ?_⟩
  simp [get_public_channel_lookup, get_channel_list, h1, List.isEmpty_iff, hne]

def n10 : ContentNode :=
  { id := "n1", tree_id := 1, lang := some "en", available := true, files := [] }

def ch10 : ChannelMetadata :=
  { id := "c1", name := "A", description := "", root := "n1" }

def W10 : Store := { channels := [ch10], nodes := [n10], files := [], local_files := [] }

theorem C10_witness :
    normalizeIdentifier " -- " = "" ∧
    get_public_channel_lookup W10 "v1" {} " -- " = HttpResult.ok [ch10] := by
  have h := C10_blank_identifier_behaves_as_listing W10 {} " -- " (by decide)
  refine ⟨by decide, ?_⟩
  exact (h.2 (by decide)).trans (congrArg HttpResult.ok (by decide))

/-- C1: for a language tag that is non-empty after stripping, a channel is
retained by the v1 language-filtered listing if and only if it is stored, its
root is available, and either the root's language tag contains the stripped
tag case-insensitively, or the root's tree-id is the tree-id of some content
node whose own language tag matches or that has an associated file whose
language tag matches; matching through a file alone suffices. -/
theorem C1_language_filtered_listing (s : Store) (L : String) (c : ChannelMetadata)
    (hL : strip L ≠ "") :
    c ∈ get_channel_list_v1 s { keyword := "", language := L } none ↔
      c ∈ s.channels ∧
        ∃ r, s.rootNode c = some r ∧ r.available = true ∧
          (langIdContains r.lang (strip L) = true ∨
            ∃ n ∈ s.nodes, n.tree_id = r.tree_id ∧
              (langIdContains n.lang (strip L) = true ∨
                ∃ f ∈ s.files, f.id ∈ n.files ∧
                  langIdContains f.lang (strip L) = true)) := by
  rw [mem_get_channel_list_v1]
  constructor
  · rintro ⟨hc, -, -, hlang, havail⟩
    rcases (channelLanguageMatch_iff s (strip L) c).mp (hlang hL) with ⟨r, hr, hcrit⟩
    rcases (channelRootAvailable_iff s c).mp havail with ⟨r2, hr2, hav⟩
    rw [hr] at hr2
    injection hr2 with hre
    subst hre
    refine ⟨hc, r, hr, hav, ?_⟩
    rcases hcrit with hown | htree
    · exact Or.inl hown
    · right
      rcases (mem_matchingTreeIds s (strip L) r.tree_id).mp htree with ⟨n, hn, hteq, hmatch⟩
      rcases (nodeMatchesLanguage_iff s (strip L) n).mp hmatch with h1 | h2
      · exact ⟨n, hn, hteq, Or.inl h1⟩
      · exact ⟨n, hn, hteq, Or.inr h2⟩
  · rintro ⟨hc, r, hr, hav, hcrit⟩
    refine ⟨hc, ?_, ?_, ?_, (channelRootAvailable_iff s c).mpr ⟨r, hr, hav⟩⟩
    · intro i hcon
      exact Option.noConfusion hcon
    · intro hcon
      exact absurd strip_empty hcon
    · intro hne
      refine (channelLanguageMatch_iff s (strip L) c).mpr ⟨r, hr, ?_⟩
      rcases hcrit with hown | ⟨n, hn, hteq, hcond⟩
      · exact Or.inl hown
      · exact Or.inr ((mem_matchingTreeIds s (strip L) r.tree_id).mpr
          ⟨n, hn, hteq, (nodeMatchesLanguage_iff s (strip L) n).mpr hcond⟩)

def nR : ContentNode :=
  { id := "n1", tree_id := 7, lang := some "fr", available := true, files := [] }

def nC : ContentNode :=
  { id := "n2", tree_id := 7, lang := some "fr", available := true, files := ["f1"] }

def fE : File := { id := "f1", lang := some "es", local_file := "lf1" }

def chE : ChannelMetadata :=
  { id := "c1", name := "French", description := "", root := "n1" }

def WE : Store := { channels := [chE], nodes := [nR, nC], files := [fE], local_files := [] }

theorem C1_witness :
    strip "es" ≠ "" ∧
    langIdContains nR.lang (strip "es") = false ∧
    langIdContains nC.lang (strip "es") = false ∧
    chE ∈ get_channel_list_v1 WE { keyword := "", language := "es" } none := by
  refine ⟨by decide, by decide, by decide, ?_⟩
  exact (C1_language_filtered_listing WE "es" chE (by decide)).mpr
    ⟨by decide, nR, by decide, by decide,
      Or.inr ⟨nC, by decide, by decide,
        Or.inr ⟨fE, by decide, by decide, by decide⟩⟩⟩

lemma length_filter_id_le_one (l : List ChannelMetadata) (v : String)
    (hnd : (l.map (fun c => c.id)).Nodup) :
    (l.filter (fun c => c.id == v)).length ≤ 1 := by
  induction l with
  | nil => simp
  | cons a t ih =>
      simp only [List.map_cons, List.nodup_cons] at hnd
      by_cases ha : a.id = v
      · have hfil : t.filter (fun c => c.id == v) = [] := by
          rw [List.filter_eq_nil_iff]
          intro b hb
          simp only [beq_iff_eq]
          intro hbv
          exact hnd.1 (List.mem_map.mpr ⟨b, hb, by rw [hbv, ha]⟩)
        simp [List.filter_cons, ha, hfil]
      · simpa [List.filter_cons, ha] using ih hnd.2

/-- C8: the lookup identifier is normalized by stripping surrounding
whitespace and removing hyphens; for a non-empty normalized identifier the
candidate set is the restriction of the listing to the zero-or-one channel
whose primary key equals it (uniqueness given distinct primary keys), and any
two identifiers with the same normalization resolve to the same response. -/
theorem C8_identifier_normalization (s : Store) (identifier : String) (p : Params)
    (h : normalizeIdentifier identifier ≠ "")
    (hnd : (s.channels.map (fun c => c.id)).Nodup) :
    (∀ c, c ∈ get_channel_list_v1 s p (some (normalizeIdentifier identifier)) ↔
        c ∈ get_channel_list_v1 s p none ∧ c.id = normalizeIdentifier identifier) ∧
    (s.channels.filter (fun c => c.id == normalizeIdentifier identifier)).length ≤ 1 ∧
    (∀ idf2, normalizeIdentifier idf2 = normalizeIdentifier identifier →
      get_public_channel_lookup s "v1" p idf2 =
        get_public_channel_lookup s "v1" p identifier) := by
  refine ⟨?_, length_filter_id_le_one s.channels _ hnd, ?_⟩
  · intro c
    rw [mem_get_channel_list_v1, mem_get_channel_list_v1]
    constructor
    · rintro ⟨h1, h2, h3, h4, h5⟩
      exact ⟨⟨h1, fun i hcon => Option.noConfusion hcon, h3, h4, h5⟩, h2 _ rfl h⟩
    · rintro ⟨⟨h1, -, h3, h4, h5⟩, h2⟩
      refine ⟨h1, ?_, h3, h4, h5⟩
      intro i hi hine
      injection hi with hie
      rw [← hie]
      exact h2
  · intro idf2 he
    unfold get_public_channel_lookup
    rw [he]

def n8 : ContentNode :=
  { id := "n1", tree_id := 1, lang := some "en", available := true, files := [] }

def ch8 : ChannelMetadata :=
  { id := "0123456789abcdef0123456789abcdef", name := "Hex", description := "",
    root := "n1" }

def W8 : Store := { channels := [ch8], nodes := [n8], files := [], local_files := [] }

theorem C8_witness :
    normalizeIdentifier "0123456789abcdef0123456789abcdef" ≠ "" ∧
    normalizeIdentifier " 01234567-89ab-cdef-0123-456789abcdef " =
      normalizeIdentifier "0123456789abcdef0123456789abcdef" ∧
    get_public_channel_lookup W8 "v1" {} " 01234567-89ab-cdef-0123-456789abcdef " =
      get_public_channel_lookup W8 "v1" {} "0123456789abcdef0123456789abcdef" ∧
    get_public_channel_lookup W8 "v1" {} "0123456789abcdef0123456789abcdef" =
      HttpResult.ok [ch8] := by
  have h := C8_identifier_normalization W8 "0123456789abcdef0123456789abcdef" {}
    (by decide) (by decide)
  exact ⟨by decide, by decide,
    h.2.2 " 01234567-89ab-cdef-0123-456789abcdef " (by decide), by decide⟩

/-- C4: with version `"v1"` and an existing channel whose root resolves, the
file-checksums endpoint returns a duplicate-free list containing exactly the
identifiers of available `LocalFile` records reachable via some `File` of
some `ContentNode` in the root's tree. -/
theorem C4_checksums_characterization (s : Store) (channel_id : String)
    (c : ChannelMetadata) (r : ContentNode)
    (hc : s.channels.find? (fun ch => ch.id == channel_id) = some c)
    (hr : s.rootNode c = some r) :
    ∃ l, get_public_file_checksums s "v1" channel_id = HttpResult.ok l ∧
      l.Nodup ∧
      ∀ x, x ∈ l ↔
        ∃ lf ∈ s.local_files, lf.id = x ∧ lf.available = true ∧
          ∃ f ∈ s.files, f.local_file = lf.id ∧
            ∃ n ∈ s.nodes, n.tree_id = r.tree_id ∧ f.id ∈ n.files := by
  refine ⟨((s.local_files.filter
      (fun lf => lf.available && localFileReachable s lf.id r.tree_id)).map
      (fun lf => lf.id)).dedup, ?_, List.nodup_dedup _, ?_⟩
  · simp [get_public_file_checksums, hc, hr]
  · intro x
    simp only [List.mem_dedup, List.mem_map, List.mem_filter, Bool.and_eq_true,
      localFileReachable, List.any_eq_true, beq_iff_eq, List.elem_iff]
    constructor
    · rintro ⟨lf, ⟨hlf, hav, f, hf, hfl, n, hn, ht, hcont⟩, hid⟩
      exact ⟨lf, hlf, hid, hav, f, hf, hfl, n, hn, ht, hcont⟩
    · rintro ⟨lf, hlf, hid, hav, f, hf, hfl, n, hn, ht, hcont⟩
      exact ⟨lf, ⟨hlf, hav, f, hf, hfl, n, hn, ht, hcont⟩, hid⟩

def n4 : ContentNode :=
  { id := "n1", tree_id := 3, lang := none, available := true, files := ["fa", "fb"] }

def fa : File := { id := "fa", lang := none, local_file := "lf1" }

def fb : File := { id := "fb", lang := none, local_file := "lf1" }

def ch4 : ChannelMetadata :=
  { id := "c1", name := "N", description := "", root := "n1" }

def W4 : Store :=
  { channels := [ch4], nodes := [n4], files := [fa, fb],
    local_files := [{ id := "lf1", available := true }] }

theorem C4_witness :
    (∃ l, get_public_file_checksums W4 "v1" "c1" = HttpResult.ok l ∧
      l.Nodup ∧
      ∀ x, x ∈ l ↔
        ∃ lf ∈ W4.local_files, lf.id = x ∧ lf.available = true ∧
          ∃ f ∈ W4.files, f.local_file = lf.id ∧
            ∃ n ∈ W4.nodes, n.tree_id = n4.tree_id ∧ f.id ∈ n.files) ∧
    get_public_file_checksums W4 "v1" "c1" = HttpResult.ok ["lf1"] :=
  ⟨C4_checksums_characterization W4 "c1" ch4 n4 (by decide) (by decide), by decide⟩

end Kolibri
